import Mathlib

/-!
Verification of the EPG merge-and-normalize pipeline of this repository.

The development shallowly embeds the Python functions that the claims are
about:

* the timestamp-normalization functions of `down_epg_pw_trans.py`
  (`parse_timezone_offset`, `format_timezone_offset`,
  `convert_time_to_timezone`, `replace_timezone_directly`,
  `adjust_time_with_offset`);
* the per-attribute conversion loop of `convert_utc2target.py`
  (`convert_utc2target`, lines 131-162);
* the duplicate-channel-id resolvers: the two-phase
  `process_epg_file` of `multi_source_epg_processor.py` /
  `epgnew4gtv2_cst.py`, and the single-pass `process_epg_file` of
  `snow_epg.py` together with its channel/programme reordering step;
* the multi-source driver loop `process_multiple_files` of
  `multi_source_epg_processor.py`.

Python strings are embedded as Lean `String` (a wrapper around
`List Char`).  `str.lower`/`str.upper` are modelled on the ASCII range,
which is the range the channel ids and timestamps of this repository
use.  Machine integers do not occur: Python's `int` is unbounded and is
embedded as `Int`/`Nat`.  `datetime.timedelta` values are embedded as
their exact total number of seconds (an `Int`); the `timedelta` range
limit (±999999999 days) is modelled where an `OverflowError` changes
observable behaviour.  Naive `datetime` values are embedded as the
number of seconds since 0001-01-01T00:00:00, the same totally ordered
range `datetime.MINYEAR..MAXYEAR` exposes via `toordinal`.
-/

/-! ## Python string primitives -/

/-- ASCII model of Python `str.lower` on a single character. -/
def pyLowerChar (c : Char) : Char :=
  if 65 ≤ c.toNat ∧ c.toNat ≤ 90 then Char.ofNat (c.toNat + 32) else c

/-- ASCII model of Python `str.lower`. -/
def pyLower (s : String) : String :=
  ⟨s.data.map pyLowerChar⟩

/-- ASCII model of Python `str.upper` on a single character. -/
def pyUpperChar (c : Char) : Char :=
  if 97 ≤ c.toNat ∧ c.toNat ≤ 122 then Char.ofNat (c.toNat - 32) else c

/-- The decimal digit characters, used to model Python's rendering of a
nonnegative `int` (`str(n)`, or an `f`-string interpolation). -/
def digitChar (n : Nat) : Char :=
  match n with
  | 0 => '0' | 1 => '1' | 2 => '2' | 3 => '3' | 4 => '4'
  | 5 => '5' | 6 => '6' | 7 => '7' | 8 => '8' | 9 => '9'
  | _ => '*'

/-- Decimal digits, fuel-based so that the definition is structurally
recursive (and therefore reducible by the kernel); the fuel is an upper
bound on the number of divisions by 10. -/
def natDigitsGo : Nat → Nat → List Char
  | 0, _ => []
  | fuel + 1, n =>
    if n < 10 then [digitChar n]
    else natDigitsGo fuel (n / 10) ++ [digitChar (n % 10)]

/-- Decimal digits of a natural number, most significant first;
models Python `str(n)` for `n ≥ 0`. -/
def natDigits (n : Nat) : List Char := natDigitsGo (n + 1) n

/-- Python `str(n)` for a natural number. -/
def natToStr (n : Nat) : String := ⟨natDigits n⟩

/-- Python `f"{n:02d}"` for `n ≥ 0`: pad with `'0'` to width 2, longer
numbers are printed in full. -/
def pad2 (n : Nat) : String :=
  if n < 10 then "0" ++ natToStr n else natToStr n

/-- Zero-padding to width 4, modelling `strftime('%Y')` for years
`1000..9999` (below 1000 the padding of `%Y` is platform-dependent; the
claims are stated inside the padded range). -/
def pad4 (n : Nat) : String :=
  if n < 10 then "000" ++ natToStr n
  else if n < 100 then "00" ++ natToStr n
  else if n < 1000 then "0" ++ natToStr n
  else natToStr n

/-- Python `s.split(sep)` for a single-character separator, on the
underlying character list: splits at every occurrence of `sep` and keeps
empty pieces, so the result is always nonempty. -/
def splitOn (sep : Char) : List Char → List (List Char)
  | [] => [[]]
  | c :: rest =>
    if c = sep then [] :: splitOn sep rest
    else
      match splitOn sep rest with
      | h :: t => (c :: h) :: t
      | [] => [[c]]

/-- Python `s.split(sep)` for a single-character separator. -/
def pySplit (sep : Char) (s : String) : List String :=
  (splitOn sep s.data).map fun l => ⟨l⟩

/-- Python whitespace characters recognized by argument-less `str.split`
(ASCII range). -/
def pyIsSpace (c : Char) : Bool :=
  c = ' ' ∨ c = '\t' ∨ c = '\n' ∨ c = '\r' ∨ c = '\x0b' ∨ c = '\x0c'

/-- Python argument-less `str.split()`: split on runs of whitespace and
drop empty pieces. -/
def splitWs : List Char → List (List Char)
  | [] => []
  | c :: rest =>
    if pyIsSpace c then splitWs rest
    else
      match splitWs rest with
      | h :: t =>
        match rest with
        | [] => [[c]]
        | c' :: _ => if pyIsSpace c' then [c] :: h :: t else (c :: h) :: t
      | [] => [[c]]

/-- Python argument-less `str.split()` on a `String`. -/
def pySplitWs (s : String) : List String :=
  (splitWs s.data).map fun l => ⟨l⟩

/-- Digits-only reading of a nonempty character list, the core of
Python `int(str)`. -/
def digitsToNat : List Char → Option Nat
  | [] => none
  | cs =>
    if cs.all Char.isDigit then
      some (cs.foldl (fun a c => a * 10 + (c.toNat - 48)) 0)
    else none

/-- Model of Python `int(s)` for the inputs this repository feeds it: an
optional sign followed by decimal digits.  (Surrounding whitespace and
`_` digit separators, which Python also tolerates, do not occur here.)
`none` models the `ValueError`. -/
def pyInt (s : String) : Option Int :=
  match s.data with
  | '+' :: rest => (digitsToNat rest).map fun n => (n : Int)
  | '-' :: rest => (digitsToNat rest).map fun n => -(n : Int)
  | cs => (digitsToNat cs).map fun n => (n : Int)

/-! ## Association lists modelling Python `dict`

Python dicts preserve insertion order; updating an existing key keeps
its position, a fresh key is appended.  Both resolvers iterate over
dicts, so the embedding keeps the order explicit. -/

/-- First value bound to `k`, modelling `d[k]` / `d.get(k)`. -/
def alookup {β : Type} : List (String × β) → String → Option β
  | [], _ => none
  | (k', v) :: rest, k => if k' = k then some v else alookup rest k

/-- `d[k] = v` on an insertion-ordered dict. -/
def ainsert {β : Type} : List (String × β) → String → β → List (String × β)
  | [], k, v => [(k, v)]
  | (k', v') :: rest, k, v =>
    if k' = k then (k', v) :: rest else (k', v') :: ainsert rest k v

theorem alookup_ainsert {β : Type} (l : List (String × β)) (k : String) (v : β) :
    alookup (ainsert l k v) k = some v := by
  induction l with
  | nil => simp [ainsert, alookup]
  | cons p rest ih =>
    obtain ⟨k', v'⟩ := p
    by_cases h : k' = k <;> simp [ainsert, alookup, h, ih]

theorem alookup_ainsert_ne {β : Type} (l : List (String × β)) (k k' : String) (v : β)
    (h : k' ≠ k) : alookup (ainsert l k' v) k = alookup l k := by
  induction l with
  | nil => simp [ainsert, alookup, h]
  | cons p rest ih =>
    obtain ⟨k'', v''⟩ := p
    by_cases h2 : k'' = k' <;> simp [ainsert, alookup, h2, ih]
    · subst h2; simp [alookup, h]

/-! ## Naive datetimes

`datetime.strptime(s, '%Y%m%d%H%M%S')` values are embedded as seconds
since 0001-01-01T00:00:00 (cf. `datetime.toordinal`, whose day 1 is
0001-01-01).  The representable range is `MINYEAR = 1` to
`MAXYEAR = 9999`; arithmetic leaving it raises `OverflowError`. -/

/-- Gregorian leap year, as in Python's `calendar`/`datetime`. -/
def isLeap (y : Nat) : Bool :=
  y % 4 = 0 ∧ (y % 100 ≠ 0 ∨ y % 400 = 0)

/-- Length of month `m` (1-12) of year `y`. -/
def daysInMonth (y m : Nat) : Nat :=
  if m = 2 then (if isLeap y then 29 else 28)
  else if m = 4 ∨ m = 6 ∨ m = 9 ∨ m = 11 then 30
  else 31

/-- Days in the years before year `y` (Python `datetime._days_before_year`). -/
def daysBeforeYear (y : Nat) : Nat :=
  let n := y - 1
  n * 365 + n / 4 + n / 400 - n / 100

/-- Days in year `y` before month `m` (Python `datetime._days_before_month`). -/
def daysBeforeMonth (y m : Nat) : Nat :=
  (match m with
   | 1 => 0 | 2 => 31 | 3 => 59 | 4 => 90 | 5 => 120 | 6 => 151
   | 7 => 181 | 8 => 212 | 9 => 243 | 10 => 273 | 11 => 304 | _ => 334)
  + (if 2 < m ∧ isLeap y then 1 else 0)

/-- Python `date(y, m, d).toordinal()`: 0001-01-01 is day 1. -/
def toOrdinal (y m d : Nat) : Nat :=
  daysBeforeYear y + daysBeforeMonth y m + d

/-- Seconds since 0001-01-01T00:00:00 of a naive datetime. -/
def dtSeconds (y mo d h mi s : Nat) : Nat :=
  (toOrdinal y mo d - 1) * 86400 + h * 3600 + mi * 60 + s

/-- One second past the largest representable datetime
(9999-12-31T23:59:59). -/
def dtMaxSeconds : Nat := toOrdinal 10000 1 1 * 86400 - 86400

/-- Inverse of `toOrdinal` on day counts since 0001-01-01 (day 0 =
0001-01-01), used to model `strftime`.  Standard civil-from-days
computation on the proleptic Gregorian calendar, as performed by
Python's `datetime._ord2ymd`. -/
def civilFromDays (n : Nat) : Nat × Nat × Nat :=
  let g := n + 306
  let era := g / 146097
  let doe := g % 146097
  let yoe := (doe - doe / 1460 + doe / 36524 - doe / 146096) / 365
  let y0 := yoe + era * 400
  let doy := doe - (365 * yoe + yoe / 4 - yoe / 100)
  let mp := (5 * doy + 2) / 153
  let d := doy - (153 * mp + 2) / 5 + 1
  let m := if mp < 10 then mp + 3 else mp - 9
  (if m ≤ 2 then y0 + 1 else y0, m, d)

/-- `adjusted_dt.strftime('%Y%m%d%H%M%S')` of a datetime given in
seconds since 0001-01-01T00:00:00. -/
def fmtDT (secs : Nat) : String :=
  let day := secs / 86400
  let rem := secs % 86400
  match civilFromDays day with
  | (y, m, d) =>
    pad4 y ++ pad2 m ++ pad2 d ++ pad2 (rem / 3600)
      ++ pad2 (rem % 3600 / 60) ++ pad2 (rem % 60)

/-- `datetime + timedelta` (the timedelta given in seconds): `none`
models the `OverflowError` raised when the result leaves
`MINYEAR..MAXYEAR`. -/
def addSeconds (dt : Nat) (delta : Int) : Option Nat :=
  let r := (dt : Int) + delta
  if 0 ≤ r ∧ r < (dtMaxSeconds : Int) then some r.toNat else none

/-! ### `datetime.strptime(s, '%Y%m%d%H%M%S')`

CPython's `_strptime` compiles the format to the regular expression
`(?P<Y>\d\d\d\d)(?P<m>1[0-2]|0[1-9]|[1-9])(?P<d>3[01]|[12]\d|0[1-9]|[1-9])`
`(?P<H>2[0-3]|[0-1]\d|\d)(?P<M>[0-5]\d|\d)(?P<S>6[0-1]|[0-5]\d|\d)` and
requires it to consume the whole string ("unconverted data remains"
otherwise); alternatives are tried left to right with backtracking.
The embedding reproduces the alternation orders and the backtracking,
then applies the `datetime(...)` constructor's range checks (day
against the month length, seconds ≤ 59, year ≥ 1), whose `ValueError`
also makes the overall parse fail. -/

/-- A two-digit candidate in `lo..hi` (one alternative of a field's
regex), returning the value and the remaining input. -/
def twoDigCand (lo hi : Nat) : List Char → List (Nat × List Char)
  | a :: b :: rest =>
    if a.isDigit ∧ b.isDigit then
      let v := (a.toNat - 48) * 10 + (b.toNat - 48)
      if lo ≤ v ∧ v ≤ hi then [(v, rest)] else []
    else []
  | _ => []

/-- A one-digit candidate in `lo..hi`. -/
def oneDigCand (lo hi : Nat) : List Char → List (Nat × List Char)
  | a :: rest =>
    if a.isDigit then
      let v := a.toNat - 48
      if lo ≤ v ∧ v ≤ hi then [(v, rest)] else []
    else []
  | _ => []

/-- `%m`: `1[0-2]|0[1-9]|[1-9]`. -/
def candMonth (cs : List Char) : List (Nat × List Char) :=
  twoDigCand 10 12 cs ++ twoDigCand 1 9 cs ++ oneDigCand 1 9 cs

/-- `%d`: `3[01]|[12]\d|0[1-9]|[1-9]`. -/
def candDay (cs : List Char) : List (Nat × List Char) :=
  twoDigCand 30 31 cs ++ twoDigCand 10 29 cs ++ twoDigCand 1 9 cs
    ++ oneDigCand 1 9 cs

/-- `%H`: `2[0-3]|[0-1]\d|\d`. -/
def candHour (cs : List Char) : List (Nat × List Char) :=
  twoDigCand 20 23 cs ++ twoDigCand 0 19 cs ++ oneDigCand 0 9 cs

/-- `%M`: `[0-5]\d|\d`. -/
def candMinute (cs : List Char) : List (Nat × List Char) :=
  twoDigCand 0 59 cs ++ oneDigCand 0 9 cs

/-- `%S`: `6[0-1]|[0-5]\d|\d`. -/
def candSecond (cs : List Char) : List (Nat × List Char) :=
  twoDigCand 60 61 cs ++ twoDigCand 0 59 cs ++ oneDigCand  0 9 cs

/-- `%Y`: exactly four digits. -/
def candYear : List Char → List (Nat × List Char)
  | a :: b :: c :: d :: rest =>
    if a.isDigit ∧ b.isDigit ∧ c.isDigit ∧ d.isDigit then
      [((a.toNat - 48) * 1000 + (b.toNat - 48) * 100
          + (c.toNat - 48) * 10 + (d.toNat - 48), rest)]
    else []
  | _ => []

/-- Backtracking match of `%Y%m%d%H%M%S` against the whole string,
candidates tried in regex alternation order. -/
def strpMatch (cs : List Char) : Option (Nat × Nat × Nat × Nat × Nat × Nat) :=
  (candYear cs).findSome? fun (y, r1) =>
  (candMonth r1).findSome? fun (mo, r2) =>
  (candDay r2).findSome? fun (d, r3) =>
  (candHour r3).findSome? fun (h, r4) =>
  (candMinute r4).findSome? fun (mi, r5) =>
  (candSecond r5).findSome? fun (s, r6) =>
  if r6 = [] then some (y, mo, d, h, mi, s) else none

/-- `datetime.strptime(s, '%Y%m%d%H%M%S')`, as seconds since
0001-01-01T00:00:00; `none` models the `ValueError` (either from the
regex or from the `datetime` constructor's range checks). -/
def strptime14 (s : String) : Option Nat :=
  match strpMatch s.data with
  | some (y, mo, d, h, mi, sec) =>
    if 1 ≤ y ∧ 1 ≤ d ∧ d ≤ daysInMonth y mo ∧ sec ≤ 59 then
      some (dtSeconds y mo d h mi sec)
    else none
  | none => none

/-! ## `down_epg_pw_trans.py`: timezone functions -/

/-- `timedelta` range limit: `timedelta.min = -999999999 days`,
`timedelta.max = 999999999 days 23:59:59.999999`; a construction or
arithmetic result outside raises `OverflowError`. -/
def tdMinSeconds : Int := -(999999999 * 86400)

/-- Upper `timedelta` bound in whole seconds. -/
def tdMaxSeconds : Int := 999999999 * 86400 + 86399

/-- `timedelta` construction from a signed number of seconds; `none`
models the `OverflowError`. -/
def mkTimedelta (secs : Int) : Option Int :=
  if tdMinSeconds ≤ secs ∧ secs ≤ tdMaxSeconds then some secs else none

/-- Does `s.upper().startswith('UTC')` hold?  (ASCII model.) -/
def startsWithUTC (s : String) : Bool :=
  match s.data with
  | a :: b :: c :: _ => pyUpperChar a = 'U' ∧ pyUpperChar b = 'T' ∧ pyUpperChar c = 'C'
  | _ => false

/-- `down_epg_pw_trans.parse_timezone_offset` (lines 725-753): parse a
timezone configuration string to a `timedelta` (embedded as seconds).
`ValueError`/`IndexError` from the `int` conversions are caught inside
and yield `timedelta(0)`; an `OverflowError` from the `timedelta`
constructor is *not* caught there (`none`), and propagates to the
caller's own `except` handler. -/
def parse_timezone_offset (tzs : String) : Option Int :=
  if startsWithUTC tzs then
    -- offset_str = timezone_str[3:]
    let off : String := ⟨tzs.data.drop 3⟩
    match off.data with
    | '+' :: rest =>
      match digitsToNat rest with
      | some h => mkTimedelta ((h : Int) * 3600)
      | none => some 0          -- ValueError caught → UTC
    | '-' :: rest =>
      match digitsToNat rest with
      | some h => mkTimedelta (-(h : Int) * 3600)
      | none => some 0
    | _ =>
      match pyInt off with      -- no sign: int(offset_str), default positive
      | some h => mkTimedelta (h * 3600)
      | none => some 0
  else if tzs.data.head? = some '+' ∨ tzs.data.head? = some '-' then
    let sign : Int := if tzs.data.head? = some '+' then 1 else -1
    let parts := pySplit ':' ⟨tzs.data.drop 1⟩
    match parts with
    | [] => some 0              -- unreachable: split is never empty
    | hs :: rest =>
      match pyInt hs with
      | none => some 0          -- ValueError caught → UTC
      | some h =>
        match rest with
        | [] => mkTimedelta (sign * h * 3600)
        | ms :: _ =>
          match pyInt ms with
          | none => some 0      -- ValueError caught → UTC
          | some m => mkTimedelta (sign * h * 3600 + sign * m * 60)
  else
    some 0                      -- neither form: default UTC

/-- `down_epg_pw_trans.format_timezone_offset` (lines 755-761): format a
`timedelta` (in seconds) as `±HHMM`; hours beyond two digits are printed
in full (`f"{hours:02d}"`). -/
def format_timezone_offset (off : Int) : String :=
  let hours := off.natAbs / 3600
  let minutes := off.natAbs % 3600 / 60
  (if 0 ≤ off then "+" else "-") ++ pad2 hours ++ pad2 minutes

/-- The offset-part parse embedded in
`down_epg_pw_trans.convert_time_to_timezone` (lines 772-778):
`tz_str[1:3]` / `tz_str[3:5]` slices fed to `int`; a string not starting
with `+`/`-` means `timedelta(0)`; `none` models a `ValueError` escaping
to the function's `except` handler. -/
def parseEmbeddedOffset (tz : String) : Option Int :=
  match tz.data with
  | c :: rest =>
    if c = '+' ∨ c = '-' then
      let sign : Int := if c = '+' then 1 else -1
      match pyInt ⟨rest.take 2⟩ with
      | none => none
      | some h =>
        if tz.data.length > 4 then
          match pyInt ⟨(rest.drop 2).take 2⟩ with
          | none => none
          | some m => some (sign * h * 3600 + sign * m * 60)
        else some (sign * h * 3600)
    else some 0
  | [] => some 0

/-- `down_epg_pw_trans.convert_time_to_timezone` (lines 763-799): shift
a `YYYYMMDDHHMMSS ±HHMM` timestamp to the target offset `tz` (a
`timedelta` in seconds, already parsed by the caller) and relabel it
with the target offset.  Any exception (unparsable datetime or offset,
more than one space, datetime overflow) is caught and returns the input
unchanged. -/
def convert_time_to_timezone (s : String) (tz : Int) : String :=
  match pySplit ' ' s with
  | [dtp, tzp] =>
    match strptime14 dtp, parseEmbeddedOffset tzp with
    | some dt, some orig =>
      match addSeconds dt (tz - orig) with
      | some adj => fmtDT adj ++ " " ++ format_timezone_offset tz
      | none => s
    | _, _ => s
  | [dtp] =>
    -- no timezone information: assume UTC (original_offset = 0)
    match strptime14 dtp with
    | some dt =>
      match addSeconds dt tz with
      | some adj => fmtDT adj ++ " " ++ format_timezone_offset tz
      | none => s
    | none => s
  | _ => s

/-- `down_epg_pw_trans.replace_timezone_directly` (lines 801-817): keep
the datetime part, replace (or append) the timezone label.  Exceptions
(an `OverflowError` from `parse_timezone_offset`, or more than one
space) are caught and return the input unchanged. -/
def replace_timezone_directly (s : String) (targetTz : String) : String :=
  match parse_timezone_offset targetTz with
  | none => s
  | some off =>
    match pySplit ' ' s with
    | [dtp, _] => dtp ++ " " ++ format_timezone_offset off
    | [_] => s ++ " " ++ format_timezone_offset off
    | _ => s

/-- `down_epg_pw_trans.adjust_time_with_offset` (lines 819-849): add
`offset_minutes` to the datetime part and write the target timezone
label.  Exceptions (unparsable datetime, datetime overflow, timezone
overflow, more than one space) are caught and return the input
unchanged. -/
def adjust_time_with_offset (s : String) (offsetMinutes : Int) (targetTz : String) : String :=
  match parse_timezone_offset targetTz with
  | none => s
  | some off =>
    let dtp : Option String :=
      match pySplit ' ' s with
      | [d, _] => some d
      | [d] => some d       -- no space: dt_str = time_str
      | _ => none           -- unpacking raises ValueError
    match dtp with
    | none => s
    | some d =>
      match strptime14 d with
      | none => s
      | some dt =>
        match addSeconds dt (offsetMinutes * 60) with
        | some adj => fmtDT adj ++ " " ++ format_timezone_offset off
        | none => s

/-! ## `convert_utc2target.py`: the per-attribute conversion -/

/-- The `±HH00` label `convert_utc2target` derives from its parsed
target (lines 61-63): `f"{tz_sign}{tz_hours:02d}00"`. -/
def utc2targetTzStr (hoursOffset : Int) : String :=
  (if 0 ≤ hoursOffset then "+" else "-") ++ pad2 hoursOffset.natAbs ++ "00"

/-- The body of `convert_utc2target`'s per-attribute loop
(`convert_utc2target.py` lines 132-162) applied to one `start`/`stop`
value: values that do not split (on runs of whitespace, `value.split()`)
into exactly two parts, or whose second part is not `+0000`, are left
untouched; eligible values are either relabelled directly or shifted by
`hoursOffset` hours.  There is no `try` around this loop, so a
`ValueError` from `strptime` or an `OverflowError` from the datetime
arithmetic propagates to the caller — modelled as `none`. -/
def convert_utc2target_attr (v : String) (hoursOffset : Int) (direct : Bool) :
    Option String :=
  match pySplitWs v with
  | [t, tz] =>
    if tz = "+0000" then
      if direct then some (t ++ " " ++ utc2targetTzStr hoursOffset)
      else
        match strptime14 t with
        | none => none          -- ValueError propagates
        | some dt =>
          match addSeconds dt (hoursOffset * 3600) with
          | none => none        -- OverflowError propagates
          | some adj => some (fmtDT adj ++ " " ++ utc2targetTzStr hoursOffset)
    else some v
  | _ => some v

/-- Is a `start`/`stop` value eligible for conversion by
`convert_utc2target` (exactly two whitespace-separated parts, the second
being `+0000`)? -/
def utc2targetEligible (v : String) : Bool :=
  match pySplitWs v with
  | [_, tz] => tz = "+0000"
  | _ => false

/-! ## Documents and the duplicate-channel-id resolvers

A document is embedded as the ordered list of the root's relevant
nodes: `channel` elements (carrying their `id` attribute), `programme`
elements (carrying their `channel` attribute) and any other node
(comments, other tags), which both resolvers ignore.  Child elements
and other attributes are untouched by the resolvers and are not
represented. -/

/-- A top-level node of an XMLTV document. -/
inductive Elem where
  | channel (id : String)
  | programme (channel : String)
  | other
deriving DecidableEq, Repr

/-- The `id`s of the `channel` elements, in document order. -/
def channelIds : List Elem → List String
  | [] => []
  | Elem.channel x :: rest => x :: channelIds rest
  | Elem.programme _ :: rest => channelIds rest
  | Elem.other :: rest => channelIds rest

/-- The `channel` attributes of the `programme` elements, in document
order. -/
def programmeRefs : List Elem → List String
  | [] => []
  | Elem.programme r :: rest => r :: programmeRefs rest
  | Elem.channel _ :: rest => programmeRefs rest
  | Elem.other :: rest => programmeRefs rest

/-! ### The channel renaming shared by both resolvers

`multi_source_epg_processor.process_epg_file` (lines 54-78),
`epgnew4gtv2_cst.process_epg_file` (lines 46-70) and
`snow_epg.process_epg_file` (lines 291-306) all rename channel ids with
the same counter logic: count occurrences of the lowercased id; the
first occurrence keeps its id, the `n`-th (n ≥ 2) becomes
`f"{old_id} ({n})"`. -/

/-- The new id assigned to a channel whose original id is `x`, given the
counter state: `old_id if count == 1 else f"{old_id} ({count})"`. -/
def renameOne (counter : List (String × Nat)) (x : String) : String :=
  let n := (alookup counter (pyLower x)).getD 0 + 1
  if n = 1 then x else x ++ " (" ++ natToStr n ++ ")"

/-- `channel_id_counter[lower_id] = count` after processing a channel
with original id `x`. -/
def renameStep (counter : List (String × Nat)) (x : String) : List (String × Nat) :=
  ainsert counter (pyLower x) ((alookup counter (pyLower x)).getD 0 + 1)

/-- The renaming pass over a list of original channel ids, threading the
counter. -/
def renameGo (counter : List (String × Nat)) : List String → List String
  | [] => []
  | x :: xs => renameOne counter x :: renameGo (renameStep counter x) xs

/-- Renaming of a document's channel ids, starting from an empty
counter. -/
def renameIds (ids : List String) : List String := renameGo [] ids

/-! ### The two-phase resolver
(`multi_source_epg_processor.process_epg_file`, identical in
`epgnew4gtv2_cst.process_epg_file`). -/

/-- Phase-1 state: `channel_id_counter`, `channel_id_map` (original id →
last new id), `all_channel_mappings` (lowercase id → all new ids, in
order), `lowercase_to_original` (lowercase id → first-seen original). -/
structure Phase1St where
  counter : List (String × Nat)
  cmap : List (String × String)
  all : List (String × List String)
  l2o : List (String × String)
deriving Repr

/-- The empty phase-1 state. -/
def initPhase1St : Phase1St := ⟨[], [], [], []⟩

/-- `all_channel_mappings[lower_id].append(new_id)` on a
`defaultdict(list)`. -/
def allAppend : List (String × List String) → String → String → List (String × List String)
  | [], k, v => [(k, [v])]
  | (k', vs) :: rest, k, v =>
    if k' = k then (k', vs ++ [v]) :: rest else (k', vs) :: allAppend rest k v

/-- Phase-1 state update for one channel with original id `x`
(`multi_source_epg_processor.py` lines 57-78). -/
def phase1Step (st : Phase1St) (x : String) : Phase1St :=
  let k := pyLower x
  let newId := renameOne st.counter x
  { counter := renameStep st.counter x
    cmap := ainsert st.cmap x newId
    all := allAppend st.all k newId
    l2o := if (alookup st.l2o k).isSome then st.l2o else st.l2o ++ [(k, x)] }

/-- Phase 1 applied to the document: every channel's id is replaced by
its new id; programmes and other nodes are untouched.  (The source
iterates `root.findall("channel")` and mutates in place; processing the
other nodes as no-ops is the same transformation.) -/
def phase1Elems (st : Phase1St) : List Elem → List Elem
  | [] => []
  | Elem.channel x :: rest =>
    Elem.channel (renameOne st.counter x) :: phase1Elems (phase1Step st x) rest
  | Elem.programme r :: rest => Elem.programme r :: phase1Elems st rest
  | Elem.other :: rest => Elem.other :: phase1Elems st rest

/-- The phase-1 state after the whole document. -/
def phase1State (st : Phase1St) : List Elem → Phase1St
  | [] => st
  | Elem.channel x :: rest => phase1State (phase1Step st x) rest
  | Elem.programme _ :: rest => phase1State st rest
  | Elem.other :: rest => phase1State st rest

/-- Phase 2's reverse lookup (lines 91-95): the first entry of
`all_channel_mappings` (in dict insertion order) whose new-id list
contains `cid`. -/
def findGroup : List (String × List String) → String → Option String
  | [], _ => none
  | (k, vs) :: rest, cid => if cid ∈ vs then some k else findGroup rest cid

/-- Phase 2's `current_mapping` update on encountering a (renamed)
channel element (lines 87-99).  The `none` fallbacks are unreachable:
whenever `findGroup` finds `k`, phase 1 has recorded `k` in
`lowercase_to_original` (in Python a missing key would raise
`KeyError`, but the key is always present). -/
def curUpdate (st : Phase1St) (cur : List (String × String)) (cid : String) :
    List (String × String) :=
  match findGroup st.all cid with
  | some k =>
    match alookup st.l2o k with
    | some orig => ainsert cur orig cid
    | none => cur
  | none => cur

/-- Phase 2's resolution of a programme's `channel` attribute `r`
(lines 100-115): map `r` through `lowercase_to_original`, then prefer
the current-context mapping, falling back to the last mapping ever
generated; `none` if neither exists. -/
def resolveRef (st : Phase1St) (cur : List (String × String)) (r : String) :
    Option String :=
  let orig := (alookup st.l2o (pyLower r)).getD r
  match alookup cur orig with
  | some v => some v
  | none => alookup st.cmap orig

/-- Phase 2 (lines 83-115): document-order traversal maintaining
`current_mapping`; programmes with no resolvable mapping are left
unchanged. -/
def phase2Elems (st : Phase1St) (cur : List (String × String)) : List Elem → List Elem
  | [] => []
  | Elem.channel cid :: rest =>
    Elem.channel cid :: phase2Elems st (curUpdate st cur cid) rest
  | Elem.programme r :: rest =>
    Elem.programme ((resolveRef st cur r).getD r) :: phase2Elems st cur rest
  | Elem.other :: rest => Elem.other :: phase2Elems st cur rest

/-- The two-phase `process_epg_file` of `multi_source_epg_processor.py`
(/ `epgnew4gtv2_cst.py`): rename duplicate channel ids, then rewrite
programme references. -/
def process_epg_file (doc : List Elem) : List Elem :=
  phase2Elems (phase1State initPhase1St doc) [] (phase1Elems initPhase1St doc)

/-! ### The single-pass resolver and reordering of `snow_epg.py` -/

/-- The single document-order pass of `snow_epg.process_epg_file`
(lines 291-326): on a channel, rename it and set
`current_mapping[old_id] = new_id` (keyed by the original, case-
sensitive id); on a programme, rewrite its reference only if it is a
key of `current_mapping` (exact, case-sensitive match).  The statistics
collection (lines 308-351) does not affect the document and is not
represented. -/
def snowResolveGo (counter : List (String × Nat)) (cur : List (String × String)) :
    List Elem → List Elem
  | [] => []
  | Elem.channel x :: rest =>
    Elem.channel (renameOne counter x) ::
      snowResolveGo (renameStep counter x) (ainsert cur x (renameOne counter x)) rest
  | Elem.programme r :: rest =>
    Elem.programme ((alookup cur r).getD r) :: snowResolveGo counter cur rest
  | Elem.other :: rest => Elem.other :: snowResolveGo counter cur rest

/-- The resolution pass of `snow_epg.process_epg_file`. -/
def snowResolve (doc : List Elem) : List Elem := snowResolveGo [] [] doc

/-- Predicate: is this node a `channel` element? -/
def isChannel : Elem → Bool
  | Elem.channel _ => true
  | _ => false

/-- Predicate: is this node a `programme` element? -/
def isProgramme : Elem → Bool
  | Elem.programme _ => true
  | _ => false

/-- Predicate: neither a `channel` nor a `programme` element. -/
def isOther : Elem → Bool
  | Elem.other => true
  | _ => false

/-- The partition loop of `snow_epg.process_epg_file` (lines 375-386):
one pass appending each node to the `channels`, `programmes` or
`others` list. -/
def partition3 : List Elem → List Elem × List Elem × List Elem
  | [] => ([], [], [])
  | e :: rest =>
    let (cs, ps, os) := partition3 rest
    match e with
    | Elem.channel _ => (e :: cs, ps, os)
    | Elem.programme _ => (cs, e :: ps, os)
    | Elem.other => (cs, ps, e :: os)

/-- The reordering of `snow_epg.process_epg_file` (lines 375-398): all
channels first, then all programmes, then the remaining nodes, each
group in document order. -/
def reorderElems (doc : List Elem) : List Elem :=
  match partition3 doc with
  | (cs, ps, os) => cs ++ ps ++ os

/-- `snow_epg.process_epg_file` on the document: resolve duplicate ids,
then reorder the elements for serialization. -/
def snow_process_epg_file (doc : List Elem) : List Elem :=
  reorderElems (snowResolve doc)

/-! ## The multi-source driver
(`multi_source_epg_processor.process_multiple_files`, lines 249-319).

The download (`download_file`) and per-file processing
(`process_epg_file`) are I/O steps; their outcomes are abstracted as
per-source booleans.  The loop body skips to the next source on a
download failure (`continue`) and counts a success only when both steps
succeed; it never breaks out early. -/

/-- The abstracted outcome of the two I/O steps for one configured
source. -/
structure SourceRun where
  downloadOk : Bool
  processOk : Bool
deriving DecidableEq, Repr

/-- What the driver loop does with one source. -/
inductive SourceOutcome where
  | downloadFailed
  | processFailed
  | succeeded
deriving DecidableEq, Repr

/-- The loop body's classification of one source. -/
def runOutcome (r : SourceRun) : SourceOutcome :=
  if !r.downloadOk then SourceOutcome.downloadFailed
  else if r.processOk then SourceOutcome.succeeded
  else SourceOutcome.processFailed

/-- The driver loop: every configured source is visited, in order, and
classified; no outcome aborts the loop. -/
def runAll (runs : List SourceRun) : List SourceOutcome :=
  runs.map runOutcome

/-- `success_count` after the loop. -/
def successCount : List SourceRun → Nat
  | [] => 0
  | r :: rest =>
    (if r.downloadOk then (if r.processOk then 1 else 0) else 0) + successCount rest

/-- `process_multiple_files`' return value: `success_count > 0`. -/
def process_multiple_files (runs : List SourceRun) : Bool :=
  match successCount runs with
  | 0 => false
  | _ => true

/-- The `__main__` exit code: 0 on success, 1 otherwise (lines 310-319). -/
def mainExitCode (runs : List SourceRun) : Nat :=
  if process_multiple_files runs then 0 else 1

/-! ## Supporting lemmas on the string primitives -/

theorem splitOn_ne_nil (sep : Char) (cs : List Char) : splitOn sep cs ≠ [] := by
  cases cs with
  | nil => simp [splitOn]
  | cons c rest =>
    by_cases h : c = sep
    · simp [splitOn, h]
    · simp only [splitOn, h, if_false]
      cases hs : splitOn sep rest <;> simp

theorem mem_splitOn_no_sep (sep : Char) (cs : List Char) :
    ∀ x ∈ splitOn sep cs, sep ∉ x := by
  induction cs with
  | nil =>
    intro x hx
    have hx' : x = [] := by simpa [splitOn] using hx
    subst hx'; simp
  | cons c rest ih =>
    intro x hx
    by_cases h : c = sep
    · rw [show splitOn sep (c :: rest) = [] :: splitOn sep rest by
        simp [splitOn, h]] at hx
      rcases List.mem_cons.mp hx with hx1 | hx1
      · subst hx1; simp
      · exact ih x hx1
    · cases hs : splitOn sep rest with
      | nil => exact absurd hs (splitOn_ne_nil sep rest)
      | cons h0 t0 =>
        rw [show splitOn sep (c :: rest) = (c :: h0) :: t0 by
          simp [splitOn, h, hs]] at hx
        rcases List.mem_cons.mp hx with hx1 | hx1
        · subst hx1
          intro hmem
          rcases List.mem_cons.mp hmem with h1 | h1
          · exact h h1.symm
          · exact ih h0 (hs ▸ List.mem_cons_self h0 t0) h1
        · exact ih x (hs ▸ List.mem_cons_of_mem h0 hx1)

theorem splitOn_no_sep (sep : Char) (cs : List Char) (h : sep ∉ cs) :
    splitOn sep cs = [cs] := by
  induction cs with
  | nil => simp [splitOn]
  | cons c rest ih =>
    simp only [List.mem_cons, not_or] at h
    have hc : c ≠ sep := fun hcc => h.1 hcc.symm
    simp [splitOn, hc, ih h.2]

theorem splitOn_append_sep (sep : Char) (a b : List Char) (ha : sep ∉ a) :
    splitOn sep (a ++ sep :: b) = a :: splitOn sep b := by
  induction a with
  | nil => simp [splitOn]
  | cons c rest ih =>
    simp only [List.mem_cons, not_or] at ha
    have hc : c ≠ sep := fun hcc => ha.1 hcc.symm
    simp [splitOn, hc, ih ha.2]

theorem splitOn_eq_single (sep : Char) (cs x : List Char)
    (h : splitOn sep cs = [x]) : x = cs ∧ sep ∉ cs := by
  induction cs generalizing x with
  | nil =>
    simp only [splitOn, List.cons.injEq, and_true] at h
    simp [← h]
  | cons c rest ih =>
    by_cases hc : c = sep
    · rw [show splitOn sep (c :: rest) = [] :: splitOn sep rest by
        simp [splitOn, hc]] at h
      have h2 : splitOn sep rest = [] := (List.cons.injEq _ _ _ _ ▸ h).2
      exact absurd h2 (splitOn_ne_nil sep rest)
    · cases hs : splitOn sep rest with
      | nil => exact absurd hs (splitOn_ne_nil sep rest)
      | cons h0 t0 =>
        rw [show splitOn sep (c :: rest) = (c :: h0) :: t0 by
          simp [splitOn, hc, hs]] at h
        have h1 : x = c :: h0 := (List.cons.injEq _ _ _ _ ▸ h).1.symm
        have h2 : t0 = [] := (List.cons.injEq _ _ _ _ ▸ h).2
        subst h2
        obtain ⟨h3, h4⟩ := ih h0 hs
        subst h3
        subst h1
        have : sep ∉ c :: h0 := by
          simp only [List.mem_cons, not_or]
          exact ⟨fun hcc => hc hcc.symm, h4⟩
        exact ⟨rfl, this⟩

theorem strMk_data (s : String) : String.mk s.data = s := rfl

theorem pySplit_append (d z : String) (hd : (' ' : Char) ∉ d.data)
    (hz : (' ' : Char) ∉ z.data) :
    pySplit ' ' (d ++ " " ++ z) = [d, z] := by
  have hdata : (d ++ " " ++ z).data = d.data ++ ' ' :: z.data := by
    rw [String.data_append, String.data_append, List.append_assoc]
    rfl
  rw [pySplit, hdata, splitOn_append_sep ' ' _ _ hd, splitOn_no_sep ' ' _ hz]
  simp [strMk_data]

theorem pySplit_mem_no_space (s x : String) (hx : x ∈ pySplit ' ' s) :
    (' ' : Char) ∉ x.data := by
  rw [pySplit] at hx
  obtain ⟨l, hl, rfl⟩ := List.mem_map.mp hx
  exact mem_splitOn_no_sep ' ' s.data l hl

theorem pySplit_single (s x : String) (h : pySplit ' ' s = [x]) :
    x = s ∧ (' ' : Char) ∉ s.data := by
  rw [pySplit] at h
  cases hs : splitOn ' ' s.data with
  | nil => exact absurd hs (splitOn_ne_nil ' ' s.data)
  | cons h0 t0 =>
    rw [hs] at h
    cases t0 with
    | cons _ _ => simp at h
    | nil =>
      simp only [List.map_cons, List.map_nil, List.cons.injEq, and_true] at h
      obtain ⟨h1, h2⟩ := splitOn_eq_single ' ' s.data h0 hs
      subst h1
      exact ⟨h ▸ strMk_data s, h2⟩

theorem digitChar_ne_space (n : Nat) : digitChar n ≠ ' ' := by
  unfold digitChar
  split <;> decide

theorem natDigitsGo_no_space (fuel : Nat) :
    ∀ n, (' ' : Char) ∉ natDigitsGo fuel n := by
  induction fuel with
  | zero => intro n; simp [natDigitsGo]
  | succ fuel ih =>
    intro n
    rw [natDigitsGo]
    by_cases h : n < 10
    · simp only [h, if_true, List.mem_singleton]
      exact fun hc => digitChar_ne_space n hc.symm
    · simp only [h, if_false, List.mem_append, List.mem_singleton, not_or]
      exact ⟨ih (n / 10), fun hc => digitChar_ne_space (n % 10) hc.symm⟩

theorem natDigits_no_space (n : Nat) : (' ' : Char) ∉ natDigits n :=
  natDigitsGo_no_space (n + 1) n

theorem pad2_no_space (n : Nat) : (' ' : Char) ∉ (pad2 n).data := by
  rw [pad2]
  by_cases h : n < 10
  · simp only [h, if_true, String.data_append]
    intro hc
    rcases List.mem_append.mp hc with hc | hc
    · exact absurd hc (by decide)
    · exact natDigits_no_space n hc
  · simp only [h, if_false]
    exact natDigits_no_space n

theorem format_timezone_offset_no_space (off : Int) :
    (' ' : Char) ∉ (format_timezone_offset off).data := by
  rw [format_timezone_offset]
  intro hc
  simp only [String.data_append] at hc
  rcases List.mem_append.mp hc with hc | hc
  · rcases List.mem_append.mp hc with hc | hc
    · by_cases h : (0 : Int) ≤ off
      · rw [if_pos h] at hc; exact absurd hc (by decide)
      · rw [if_neg h] at hc; exact absurd hc (by decide)
    · exact pad2_no_space _ hc
  · exact pad2_no_space _ hc

theorem pySplit_ne_nil (sep : Char) (s : String) : pySplit sep s ≠ [] := by
  rw [pySplit]
  intro h
  exact splitOn_ne_nil sep s.data (List.map_eq_nil_iff.mp h)

/-- Claim C9: for every timestamp string `t` and target zone `Z`,
applying the direct-relabel operation
(`down_epg_pw_trans.replace_timezone_directly`) twice with the same
target is the same as applying it once. -/
theorem c9_thm (t Z : String) :
    replace_timezone_directly (replace_timezone_directly t Z) Z =
      replace_timezone_directly t Z := by
  cases hp : parse_timezone_offset Z with
  | none => simp [replace_timezone_directly, hp]
  | some off =>
    have hz := format_timezone_offset_no_space off
    cases hsp : pySplit ' ' t with
    | nil => exact absurd hsp (pySplit_ne_nil ' ' t)
    | cons d rest =>
      cases rest with
      | nil =>
        obtain ⟨hd, hns⟩ := pySplit_single t d hsp
        subst hd
        have h2 := pySplit_append d (format_timezone_offset off) hns hz
        simp [replace_timezone_directly, hp, hsp, h2]
      | cons w rest2 =>
        cases rest2 with
        | nil =>
          have hd : (' ' : Char) ∉ d.data :=
            pySplit_mem_no_space t d (hsp ▸ List.mem_cons_self d [w])
          have h2 := pySplit_append d (format_timezone_offset off) hd hz
          simp [replace_timezone_directly, hp, hsp, h2]
        | cons u rest3 =>
          simp [replace_timezone_directly, hp, hsp]

/-! ## The suffix scheme of the renaming pass -/

/-- The suffix scheme the spec ascribes to one case-insensitive
collision group, starting after `m` earlier occurrences: the occurrence
with `m = 0` keeps its id, the occurrence with `m` predecessors becomes
`id ++ " (" ++ str (m+1) ++ ")"`. -/
def suffixFrom (m : Nat) : List String → List String
  | [] => []
  | x :: xs =>
    (if m = 0 then x else x ++ " (" ++ natToStr (m + 1) ++ ")") ::
      suffixFrom (m + 1) xs

theorem renameGo_group (k : String) :
    ∀ (ids : List String) (c : List (String × Nat)),
    ((ids.zip (renameGo c ids)).filter (fun p => pyLower p.1 == k)).map Prod.snd
      = suffixFrom ((alookup c k).getD 0) (ids.filter (fun x => pyLower x == k)) := by
  intro ids
  induction ids with
  | nil => intro c; simp [renameGo, suffixFrom]
  | cons x xs ih =>
    intro c
    rw [renameGo]
    by_cases h : pyLower x = k
    · have hbeq : (pyLower x == k) = true := beq_iff_eq.mpr h
      simp only [List.zip_cons_cons, List.filter_cons, hbeq, if_true,
        List.map_cons, ih (renameStep c x)]
      have hstep : alookup (renameStep c x) k
          = some ((alookup c k).getD 0 + 1) := by
        rw [renameStep, h, alookup_ainsert]
      rw [hstep]
      rw [suffixFrom]
      have hone : renameOne c x
          = if (alookup c k).getD 0 = 0 then x
            else x ++ " (" ++ natToStr ((alookup c k).getD 0 + 1) ++ ")" := by
        rw [renameOne, h]
        by_cases h0 : (alookup c k).getD 0 = 0 <;> simp [h0]
      rw [hone]
      simp
    · have hbeq : (pyLower x == k) = false := by
        simp [beq_iff_eq, h]
      have hstep : alookup (renameStep c x) k = alookup c k := by
        rw [renameStep]
        exact alookup_ainsert_ne _ _ _ _ h
      simp [List.filter_cons, hbeq, ih (renameStep c x), hstep]

/-! ## Channel ids through the pipelines -/

theorem channelIds_phase1 (st : Phase1St) (doc : List Elem) :
    channelIds (phase1Elems st doc) = renameGo st.counter (channelIds doc) := by
  induction doc generalizing st with
  | nil => simp [phase1Elems, channelIds, renameGo]
  | cons e rest ih =>
    cases e with
    | channel x =>
      rw [phase1Elems, channelIds, channelIds, renameGo, ih (phase1Step st x)]
      rfl
    | programme r => rw [phase1Elems, channelIds, channelIds, ih st]
    | other => rw [phase1Elems, channelIds, channelIds, ih st]

theorem channelIds_phase2 (st : Phase1St) (cur : List (String × String))
    (doc : List Elem) : channelIds (phase2Elems st cur doc) = channelIds doc := by
  induction doc generalizing cur with
  | nil => rfl
  | cons e rest ih =>
    cases e with
    | channel x => rw [phase2Elems, channelIds, channelIds, ih]
    | programme r => rw [phase2Elems, channelIds, channelIds, ih]
    | other => rw [phase2Elems, channelIds, channelIds, ih]

theorem channelIds_process (doc : List Elem) :
    channelIds (process_epg_file doc) = renameIds (channelIds doc) := by
  rw [process_epg_file, channelIds_phase2, channelIds_phase1]
  rfl

theorem channelIds_snowGo (c : List (String × Nat)) (cur : List (String × String))
    (doc : List Elem) :
    channelIds (snowResolveGo c cur doc) = renameGo c (channelIds doc) := by
  induction doc generalizing c cur with
  | nil => rfl
  | cons e rest ih =>
    cases e with
    | channel x =>
      rw [snowResolveGo, channelIds, channelIds, renameGo, ih]
    | programme r => rw [snowResolveGo, channelIds, channelIds, ih]
    | other => rw [snowResolveGo, channelIds, channelIds, ih]

theorem partition3_eq (doc : List Elem) :
    partition3 doc
      = (doc.filter isChannel, doc.filter isProgramme, doc.filter isOther) := by
  induction doc with
  | nil => rfl
  | cons e rest ih =>
    cases e with
    | channel x => simp [partition3, ih, List.filter_cons, isChannel, isProgramme, isOther]
    | programme r => simp [partition3, ih, List.filter_cons, isChannel, isProgramme, isOther]
    | other => simp [partition3, ih, List.filter_cons, isChannel, isProgramme, isOther]

theorem reorderElems_eq (doc : List Elem) :
    reorderElems doc
      = doc.filter isChannel ++ doc.filter isProgramme ++ doc.filter isOther := by
  rw [reorderElems, partition3_eq]

theorem channelIds_append (a b : List Elem) :
    channelIds (a ++ b) = channelIds a ++ channelIds b := by
  induction a with
  | nil => rfl
  | cons e rest ih =>
    cases e with
    | channel x => rw [List.cons_append, channelIds, channelIds, ih, List.cons_append]
    | programme r => rw [List.cons_append, channelIds, channelIds, ih]
    | other => rw [List.cons_append, channelIds, channelIds, ih]

theorem channelIds_filter_channel (doc : List Elem) :
    channelIds (doc.filter isChannel) = channelIds doc := by
  induction doc with
  | nil => rfl
  | cons e rest ih =>
    cases e with
    | channel x => simp [List.filter_cons, isChannel, channelIds, ih]
    | programme r => simp [List.filter_cons, isChannel, channelIds, ih]
    | other => simp [List.filter_cons, isChannel, channelIds, ih]

theorem channelIds_filter_programme (doc : List Elem) :
    channelIds (doc.filter isProgramme) = [] := by
  induction doc with
  | nil => rfl
  | cons e rest ih =>
    cases e with
    | channel x => simp [List.filter_cons, isProgramme, channelIds, ih]
    | programme r => simp [List.filter_cons, isProgramme, channelIds, ih]
    | other => simp [List.filter_cons, isProgramme, channelIds, ih]

theorem channelIds_filter_other (doc : List Elem) :
    channelIds (doc.filter isOther) = [] := by
  induction doc with
  | nil => rfl
  | cons e rest ih =>
    cases e with
    | channel x => simp [List.filter_cons, isOther, channelIds, ih]
    | programme r => simp [List.filter_cons, isOther, channelIds, ih]
    | other => simp [List.filter_cons, isOther, channelIds, ih]

theorem channelIds_snow_process (doc : List Elem) :
    channelIds (snow_process_epg_file doc) = renameIds (channelIds doc) := by
  rw [snow_process_epg_file, reorderElems_eq, channelIds_append, channelIds_append,
    channelIds_filter_channel, channelIds_filter_programme, channelIds_filter_other,
    List.append_nil, List.append_nil, snowResolve, channelIds_snowGo]
  rfl

/-! ## Phase-2 state at a document position (for claim C7) -/

/-- The `current_mapping` dict after phase 2 has traversed the given
prefix of the (phase-1-renamed) document. -/
def curAfter (st : Phase1St) (cur : List (String × String)) :
    List Elem → List (String × String)
  | [] => cur
  | Elem.channel cid :: rest => curAfter st (curUpdate st cur cid) rest
  | Elem.programme _ :: rest => curAfter st cur rest
  | Elem.other :: rest => curAfter st cur rest

theorem phase1Elems_get_programme (st : Phase1St) (doc : List Elem) (i : Nat)
    (r : String) (h : doc.get? i = some (Elem.programme r)) :
    (phase1Elems st doc).get? i = some (Elem.programme r) := by
  induction doc generalizing st i with
  | nil => simp at h
  | cons e rest ih =>
    cases i with
    | zero =>
      simp only [List.get?_cons_zero, Option.some.injEq] at h
      subst h
      rfl
    | succ i =>
      simp only [List.get?_cons_succ] at h
      cases e with
      | channel x => exact ih (phase1Step st x) i h
      | programme r2 => exact ih st i h
      | other => exact ih st i h

theorem phase2Elems_get (st : Phase1St) (elems : List Elem) :
    ∀ (cur : List (String × String)) (i : Nat) (r : String),
    elems.get? i = some (Elem.programme r) →
    resolveRef st (curAfter st cur (elems.take i)) r = none →
    (phase2Elems st cur elems).get? i = some (Elem.programme r) := by
  induction elems with
  | nil => intro cur i r h _; simp at h
  | cons e rest ih =>
    intro cur i r h hres
    cases i with
    | zero =>
      simp only [List.get?_cons_zero, Option.some.injEq] at h
      subst h
      simp only [List.take_zero, curAfter] at hres
      simp [phase2Elems, resolveRef] at hres ⊢
      simp [hres]
    | succ i =>
      simp only [List.get?_cons_succ] at h
      rw [List.take_succ_cons] at hres
      cases e with
      | channel x =>
        rw [curAfter] at hres
        exact ih (curUpdate st cur x) i r h hres
      | programme r2 =>
        rw [curAfter] at hres
        exact ih cur i r h hres
      | other =>
        rw [curAfter] at hres
        exact ih cur i r h hres

/-- Claim C7: a programme element whose `channel` attribute has no
resolvable mapping — neither a current-context mapping
(`current_mapping`) nor a last-known mapping (`channel_id_map`) exists
for it at its position — is left entirely unmodified by the two-phase
resolver `process_epg_file`. -/
theorem c7_thm (doc : List Elem) (i : Nat) (r : String)
    (h1 : doc.get? i = some (Elem.programme r))
    (h2 : resolveRef (phase1State initPhase1St doc)
      (curAfter (phase1State initPhase1St doc) []
        ((phase1Elems initPhase1St doc).take i)) r = none) :
    (process_epg_file doc).get? i = some (Elem.programme r) :=
  phase2Elems_get (phase1State initPhase1St doc) (phase1Elems initPhase1St doc)
    [] i r (phase1Elems_get_programme initPhase1St doc i r h1) h2

/-- Witness for C7 at a concrete document: the programme referencing
`"B"` (no channel with that id exists) is returned unchanged. -/
theorem c7_witness :
    (process_epg_file [Elem.channel "A", Elem.programme "B"]).get? 1
      = some (Elem.programme "B") :=
  c7_thm [Elem.channel "A", Elem.programme "B"] 1 "B" (by decide) (by decide)

/-! ## Claims C1 and C2: the duplicate-id resolvers -/

/-- Counterexample to claim C1 as stated: on the document
`<channel id="CNN"/><channel id="cnn"/><programme channel="CNN"/><programme channel="cnn"/>`
the two-phase resolver does *not* produce programmes bound to `CNN` and
`cnn (2)` respectively. -/
theorem c1_counterexample :
    process_epg_file [Elem.channel "CNN", Elem.channel "cnn",
        Elem.programme "CNN", Elem.programme "cnn"]
      ≠ [Elem.channel "CNN", Elem.channel "cnn (2)",
         Elem.programme "CNN", Elem.programme "cnn (2)"] := by decide

/-- Claim C1 (amended): on that document the two-phase resolver yields
channel ids `CNN` and `cnn (2)` but rewrites *both* programmes' channel
attributes to `cnn (2)`: both channel blocks precede the programmes,
`current_mapping` is keyed by the collision group's first-seen original
id (`CNN`), so the nearest preceding channel block of the group — the
renamed `cnn (2)` — overwrites the mapping both programmes then use. -/
theorem c1_thm :
    process_epg_file [Elem.channel "CNN", Elem.channel "cnn",
        Elem.programme "CNN", Elem.programme "cnn"]
      = [Elem.channel "CNN", Elem.channel "cnn (2)",
         Elem.programme "cnn (2)", Elem.programme "cnn (2)"] := by decide

/-- Counterexample to claim C2 as stated: the output ids are not always
duplicate-free.  The input channels `a (2)`, `a`, `a` are renamed to
`a (2)`, `a`, `a (2)` — the suffix generated for the third channel
collides with the first channel's original id. -/
theorem c2_counterexample :
    ¬ (channelIds (process_epg_file
        [Elem.channel "a (2)", Elem.channel "a", Elem.channel "a"])).Nodup := by
  decide

/-- Claim C2 (amended): for every document and every case-insensitive
key, the suffix scheme holds for both resolvers — pairing each original
channel id with the id emitted at the same position, the members of the
collision group of key `k` are, in document order, the first with its
original id unchanged and the m-th (m ≥ 2) with `" (m)"` appended.  The
claim's global no-duplicates property is *not* guaranteed (see the
counterexample): an original id that textually equals a generated
suffixed form can collide with it. -/
theorem c2_thm (doc : List Elem) (k : String) :
    (((channelIds doc).zip (channelIds (process_epg_file doc))).filter
          (fun p => pyLower p.1 == k)).map Prod.snd
        = suffixFrom 0 ((channelIds doc).filter (fun x => pyLower x == k))
    ∧ (((channelIds doc).zip (channelIds (snow_process_epg_file doc))).filter
          (fun p => pyLower p.1 == k)).map Prod.snd
        = suffixFrom 0 ((channelIds doc).filter (fun x => pyLower x == k)) := by
  constructor
  · rw [channelIds_process, renameIds]
    simpa using renameGo_group k (channelIds doc) []
  · rw [channelIds_snow_process, renameIds]
    simpa using renameGo_group k (channelIds doc) []

/-! ## Claim C6: the minute-offset scenario -/

/-- Counterexample to claim C6 as stated: with the target zone given
literally as `"+0800"`, `adjust_time_with_offset` does not produce
`"20250101115000 +0800"`.  `parse_timezone_offset` reads `"+0800"`
through its `±HH:MM` branch as 800 hours, so the emitted label is
`"+80000"`. -/
theorem c6_counterexample :
    adjust_time_with_offset "20250101120000 +0000" (-10) "+0800"
        = "20250101115000 +80000"
    ∧ ("20250101115000 +80000" : String) ≠ "20250101115000 +0800" := by
  constructor
  · decide
  · decide

/-- Claim C6 (amended): the minute-offset scenario holds when the
target zone is written in a form `parse_timezone_offset` is documented
to accept — `"UTC+8"` — and then the result is exactly
`"20250101115000 +0800"`. -/
theorem c6_thm :
    adjust_time_with_offset "20250101120000 +0000" (-10) "UTC+8"
      = "20250101115000 +0800" := by decide

/-! ## Claim C8: the multi-source driver -/

theorem successCount_pos (runs : List SourceRun) :
    successCount runs ≠ 0
      ↔ ∃ r ∈ runs, r.downloadOk = true ∧ r.processOk = true := by
  induction runs with
  | nil => simp [successCount]
  | cons r rest ih =>
    rw [successCount]
    cases hd : r.downloadOk <;> cases hp : r.processOk <;>
      simp [hd, hp, ih]

/-- Claim C8: the driver loop visits every configured source,
classifying each one locally — the outcomes of a sublist of sources do
not depend on the surrounding sources, so one source's download or
processing failure cannot prevent the others from being processed — and
the process exits successfully if and only if at least one source was
downloaded and processed successfully. -/
theorem c8_thm :
    (∀ (a b : List SourceRun), runAll (a ++ b) = runAll a ++ runAll b)
    ∧ (∀ runs : List SourceRun,
        mainExitCode runs = 0
          ↔ ∃ r ∈ runs, r.downloadOk = true ∧ r.processOk = true) := by
  constructor
  · intro a b
    exact List.map_append runOutcome a b
  · intro runs
    rw [mainExitCode, process_multiple_files]
    rcases h : successCount runs with _ | n
    · have hnex : ¬ ∃ r ∈ runs, r.downloadOk = true ∧ r.processOk = true :=
        fun hex => (successCount_pos runs).mpr hex h
      simp [h, hnex]
    · have hex : ∃ r ∈ runs, r.downloadOk = true ∧ r.processOk = true :=
        (successCount_pos runs).mp (by omega)
      simp [h, hex]

/-! ## Claim C10: the serializer's reordering -/

/-- Claim C10: the document emitted by `snow_epg`'s serialization step
puts every channel element before every programme element whatever the
input interleaving was — the output is the input's channels (in input
order), then its programmes (in input order), then the remaining nodes —
and this reordering is not the identity on mixed interleavings, as the
two-element document `[programme, channel]` shows. -/
theorem c10_thm :
    (∀ doc : List Elem,
        reorderElems doc
          = doc.filter isChannel ++ doc.filter isProgramme ++ doc.filter isOther)
    ∧ reorderElems [Elem.programme "p", Elem.channel "c"]
        ≠ [Elem.programme "p", Elem.channel "c"] := by
  exact ⟨reorderElems_eq, by decide⟩

/-! ## Claim C3: offset-convert correctness -/

/-- Counterexample to claim C3 as stated: the universally quantified
conversion property fails at the lower boundary of the datetime range.
Converting the well-formed timestamp `"00010101000000 +0000"` to target
offset `-0100` would need the unrepresentable datetime
0000-12-31T23:00:00; the `OverflowError` is caught and the input is
returned unchanged, so the emitted label is not the target offset. -/
theorem c3_counterexample :
    convert_time_to_timezone "00010101000000 +0000" (-3600)
        = "00010101000000 +0000"
    ∧ ("00010101000000 +0000" : String) ≠ "00001231230000 -0100" := by
  constructor
  · decide
  · decide

/-- Claim C3 (amended): for every well-formed timestamp
`"YYYYMMDDHHMMSS O1"` (datetime component `dt`, embedded offset `o1`
seconds) whose shifted value stays inside the representable datetime
range, conversion to target offset `tz` yields the timestamp whose
naive datetime component is the original plus `tz - o1` and whose
trailing zone label is the target offset. -/
theorem c3_thm (s dtp tzp : String) (dt : Nat) (o1 tz : Int)
    (hs : pySplit ' ' s = [dtp, tzp])
    (hdt : strptime14 dtp = some dt)
    (ho : parseEmbeddedOffset tzp = some o1)
    (hlo : 0 ≤ (dt : Int) + (tz - o1))
    (hhi : (dt : Int) + (tz - o1) < (dtMaxSeconds : Int)) :
    convert_time_to_timezone s tz
      = fmtDT ((dt : Int) + (tz - o1)).toNat ++ " "
          ++ format_timezone_offset tz := by
  rw [convert_time_to_timezone, hs]
  simp only [hdt, ho, addSeconds]
  rw [if_pos ⟨hlo, hhi⟩]

/-- Witness for C3 at the spec's example: `"20250816160000 +0000"`
converted to UTC+8 (28800 s) is `"20250817000000 +0800"`. -/
theorem c3_witness :
    convert_time_to_timezone "20250816160000 +0000" 28800
      = "20250817000000 +0800" := by
  have h := c3_thm "20250816160000 +0000" "20250816160000" "+0000"
    63890956800 0 28800 (by decide) (by decide) (by decide) (by decide) (by decide)
  rw [h]
  decide

/-! ## Claim C4: the eligibility filter -/

/-- Counterexample to claim C4 as stated: not every time-normalization
operation passes timestamps with a non-eligible embedded offset through
unchanged.  `convert_time_to_timezone` (which has no eligibility
filter) converts a `+0300`-tagged timestamp instead of returning it
byte-identically. -/
theorem c4_counterexample :
    convert_time_to_timezone "20250101120000 +0300" 28800
        = "20250101170000 +0800"
    ∧ ("20250101170000 +0800" : String) ≠ "20250101120000 +0300" := by
  constructor
  · decide
  · decide

/-- Claim C4 (amended): the eligibility filter is a property of the
`convert_utc2target`/`convert_utc2cst` attribute loop only: a
`start`/`stop` value that is not eligible (it does not split into
exactly two whitespace-separated parts with second part `+0000`) is
returned byte-identical to the input, for either conversion mode.  The
`down_epg_pw_trans` operations apply regardless of the embedded
offset. -/
theorem c4_thm (v : String) (hoursOffset : Int) (direct : Bool)
    (h : utc2targetEligible v = false) :
    convert_utc2target_attr v hoursOffset direct = some v := by
  cases hsp : pySplitWs v with
  | nil => simp [convert_utc2target_attr, hsp]
  | cons a rest =>
    cases rest with
    | nil => simp [convert_utc2target_attr, hsp]
    | cons b rest2 =>
      cases rest2 with
      | nil =>
        rw [utc2targetEligible, hsp] at h
        simp only [decide_eq_false_iff_not] at h
        simp [convert_utc2target_attr, hsp, h]
      | cons c rest3 => simp [convert_utc2target_attr, hsp]

/-- Witness for C4 at a concrete ineligible value: the `+0300`-tagged
timestamp is returned unchanged by the `convert_utc2target` loop. -/
theorem c4_witness :
    convert_utc2target_attr "20250101120000 +0300" 8 false
      = some "20250101120000 +0300" :=
  c4_thm "20250101120000 +0300" 8 false (by decide)

/-! ## Claim C5: fail-soft on malformed timestamps -/

/-- Does the parse stage of `convert_time_to_timezone` succeed on this
input?  (Datetime component parsable, and — when a second part is
present — its offset slices parsable.) -/
def convertTimeParseOk (s : String) : Bool :=
  match pySplit ' ' s with
  | [dtp, tzp] => (strptime14 dtp).isSome && (parseEmbeddedOffset tzp).isSome
  | [dtp] => (strptime14 dtp).isSome
  | _ => false

/-- Does the datetime-parse stage of `adjust_time_with_offset` succeed
on this input? -/
def adjustParseOk (s : String) : Bool :=
  match pySplit ' ' s with
  | [d, _] => (strptime14 d).isSome
  | [d] => (strptime14 d).isSome
  | _ => false

/-- Counterexample to claim C5 as stated: not every time-normalization
function fails soft.  `convert_utc2target`'s conversion loop has no
exception handler: on a `+0000`-tagged value with an unparsable
datetime component, `datetime.strptime` raises a `ValueError` that
propagates to the caller (modelled as `none`) instead of the original
string being returned. -/
theorem c5_counterexample :
    convert_utc2target_attr "ABCDEFGHIJKLMN +0000" 8 false = none := by decide

/-- Claim C5 (amended): the `down_epg_pw_trans` normalization
functions do fail soft — whenever their timestamp parse stage fails,
`convert_time_to_timezone` and `adjust_time_with_offset` return the
input string unchanged (their bodies are wrapped in `except` handlers,
so nothing propagates) — but `convert_utc2target` raises on eligible
values with unparsable datetimes (see the counterexample). -/
theorem c5_thm (s : String) :
    (∀ tz : Int, convertTimeParseOk s = false →
        convert_time_to_timezone s tz = s)
    ∧ (∀ (m : Int) (zstr : String), adjustParseOk s = false →
        adjust_time_with_offset s m zstr = s) := by
  constructor
  · intro tz h
    cases hsp : pySplit ' ' s with
    | nil => simp [convert_time_to_timezone, hsp]
    | cons a rest =>
      cases rest with
      | nil =>
        cases hdt : strptime14 a with
        | none => simp [convert_time_to_timezone, hsp, hdt]
        | some dt =>
          exact absurd h (by simp [convertTimeParseOk, hsp, hdt])
      | cons b rest2 =>
        cases rest2 with
        | nil =>
          cases hdt : strptime14 a with
          | none => simp [convert_time_to_timezone, hsp, hdt]
          | some dt =>
            cases ho : parseEmbeddedOffset b with
            | none => simp [convert_time_to_timezone, hsp, hdt, ho]
            | some o =>
              exact absurd h (by simp [convertTimeParseOk, hsp, hdt, ho])
        | cons c rest3 => simp [convert_time_to_timezone, hsp]
  · intro m zstr h
    cases hz : parse_timezone_offset zstr with
    | none => simp [adjust_time_with_offset, hz]
    | some off =>
      cases hsp : pySplit ' ' s with
      | nil => simp [adjust_time_with_offset, hz, hsp]
      | cons a rest =>
        cases rest with
        | nil =>
          cases hdt : strptime14 a with
          | none => simp [adjust_time_with_offset, hz, hsp, hdt]
          | some dt =>
            exact absurd h (by simp [adjustParseOk, hsp, hdt])
        | cons b rest2 =>
          cases rest2 with
          | nil =>
            cases hdt : strptime14 a with
            | none => simp [adjust_time_with_offset, hz, hsp, hdt]
            | some dt =>
              exact absurd h (by simp [adjustParseOk, hsp, hdt])
          | cons c rest3 => simp [adjust_time_with_offset, hz, hsp]

/-- Witness for C5 (amended) at the unparsable input `"hello world"`:
both functions return it unchanged. -/
theorem c5_witness :
    convert_time_to_timezone "hello world" 28800 = "hello world"
    ∧ adjust_time_with_offset "hello world" (-10) "UTC+8" = "hello world" :=
  ⟨(c5_thm "hello world").1 28800 (by decide),
    (c5_thm "hello world").2 (-10) "UTC+8" (by decide)⟩
